import Mathlib

/-!
Verification of the order-book trading engine.

Shallow embedding of the TypeScript sources:
- src/services/orderbook.ts  (OrderbookManager)
- src/trading/bot.ts         (TradingBot: bracket placement, monitoring, direction flip)
- src/trading/state.ts       (BotStateManager.completeTrade)
- src/trading/micro-grid.ts  (checkCircuitBreaker)
- src/types/trade.ts         (calculateFees)
- services/orders.ts         (roundToPrecision, roundToStepSize)

JavaScript numbers are modelled as exact rationals (ℚ); JS Math.round is
modelled as x ↦ ⌊x + 1/2⌋ (round half toward +∞, as in JS), Math.floor as ⌊·⌋.
Fallible lookups return Option.
-/

namespace OBTrader

/-- Trade direction, `DirectionSchema = z.enum(['LONG', 'SHORT'])`. -/
inductive Direction where
  | LONG
  | SHORT
deriving DecidableEq, Repr

/-- The direction switch performed by bot.ts:
`this.direction = this.direction === 'LONG' ? 'SHORT' : 'LONG'`. -/
def Direction.flip : Direction → Direction
  | .LONG => .SHORT
  | .SHORT => .LONG

/-- One book level `[price, qty]` (the wire strings, already parsed to numbers). -/
abbrev OrderbookLevel := ℚ × ℚ

/-- `OrderbookState` from src/types/index.ts. -/
structure OrderbookState where
  bids : List OrderbookLevel
  asks : List OrderbookLevel
  lastUpdateId : ℤ
  timestamp : ℤ
deriving DecidableEq, Repr

/-- The fields of the depth-stream diff message used by `OrderbookManager.update`:
`E` event time, `u` final update id, `b` bids, `a` asks. -/
structure OrderbookUpdate where
  E : ℤ
  u : ℤ
  b : List OrderbookLevel
  a : List OrderbookLevel
deriving DecidableEq, Repr

namespace OrderbookManager

/-- `OrderbookManager.update` (orderbook.ts lines 27-45): replace the whole state
with the diff's arrays only when `data.u > lastUpdateId`, otherwise return unchanged. -/
def update (s : OrderbookState) (d : OrderbookUpdate) : OrderbookState :=
  if d.u ≤ s.lastUpdateId then s
  else { bids := d.b, asks := d.a, lastUpdateId := d.u, timestamp := d.E }

/-- `OrderbookManager.getBestBid` (orderbook.ts lines 81-84). -/
def getBestBid (s : OrderbookState) : Option ℚ :=
  match s.bids with
  | [] => none
  | l :: _ => some l.1

/-- `OrderbookManager.getBestAsk` (orderbook.ts lines 89-92). -/
def getBestAsk (s : OrderbookState) : Option ℚ :=
  match s.asks with
  | [] => none
  | l :: _ => some l.1

/-- `OrderbookManager.getBidAtLevel` (orderbook.ts lines 98-102), 1-indexed. -/
def getBidAtLevel (s : OrderbookState) (level : ℤ) : Option ℚ :=
  let index := level - 1
  if index < 0 ∨ (s.bids.length : ℤ) ≤ index then none
  else (s.bids[index.toNat]?).map Prod.fst

/-- `OrderbookManager.getAskAtLevel` (orderbook.ts lines 108-112), 1-indexed. -/
def getAskAtLevel (s : OrderbookState) (level : ℤ) : Option ℚ :=
  let index := level - 1
  if index < 0 ∨ (s.asks.length : ℤ) ≤ index then none
  else (s.asks[index.toNat]?).map Prod.fst

/-- `OrderbookManager.getEntryPrice` (orderbook.ts lines 119-125). -/
def getEntryPrice (s : OrderbookState) (direction : Direction) (level : ℤ) : Option ℚ :=
  match direction with
  | .LONG => getBidAtLevel s level
  | .SHORT => getAskAtLevel s level

/-- `OrderbookManager.getTakeProfitPrice` (orderbook.ts lines 132-140). -/
def getTakeProfitPrice (s : OrderbookState) (direction : Direction) (level : ℤ) : Option ℚ :=
  match direction with
  | .LONG => getAskAtLevel s level
  | .SHORT => getBidAtLevel s level

/-- `OrderbookManager.getStopLossPrice` (orderbook.ts lines 147-155). -/
def getStopLossPrice (s : OrderbookState) (direction : Direction) (level : ℤ) : Option ℚ :=
  match direction with
  | .LONG => getBidAtLevel s level
  | .SHORT => getAskAtLevel s level

/-- Result record of `validateTPSLPrices` (the `reason` string is dropped;
it carries no decision information). -/
structure TPSLValidation where
  tpValid : Bool
  slValid : Bool
deriving DecidableEq, Repr

/-- `OrderbookManager.validateTPSLPrices` (orderbook.ts lines 161-194). -/
def validateTPSLPrices (direction : Direction) (entryPrice tpPrice slPrice : ℚ) :
    TPSLValidation :=
  match direction with
  | .LONG => { tpValid := decide (tpPrice > entryPrice), slValid := decide (slPrice < entryPrice) }
  | .SHORT => { tpValid := decide (tpPrice < entryPrice), slValid := decide (slPrice > entryPrice) }

end OrderbookManager

/-- Scenario A snapshot:
bids `[[100000,1],[99999,2],[99998,1.5]]`, asks `[[100001,1],[100002,2],[100003,1.5]]`,
`lastUpdateId = 12345`. -/
def scenarioA : OrderbookState :=
  { bids := [(100000, 1), (99999, 2), (99998, 3/2)]
    asks := [(100001, 1), (100002, 2), (100003, 3/2)]
    lastUpdateId := 12345
    timestamp := 0 }

/-- Scenario B snapshot: 10 bid levels `100000..99991`, 10 ask levels `100001..100010`. -/
def scenarioB : OrderbookState :=
  { bids := [(100000, 1), (99999, 1), (99998, 1), (99997, 1), (99996, 1),
             (99995, 1), (99994, 1), (99993, 1), (99992, 1), (99991, 1)]
    asks := [(100001, 1), (100002, 1), (100003, 1), (100004, 1), (100005, 1),
             (100006, 1), (100007, 1), (100008, 1), (100009, 1), (100010, 1)]
    lastUpdateId := 12345
    timestamp := 0 }

/-- Claim C1: a diff whose final update id `u` is at most the mirror's current
`lastUpdateId` leaves the entire stored state (hence `bestBid`/`bestAsk`) unchanged,
and a diff with a strictly greater update id replaces the bid/ask arrays. -/
theorem update_stale_frame (s : OrderbookState) (d : OrderbookUpdate) :
    (d.u ≤ s.lastUpdateId →
      OrderbookManager.update s d = s ∧
      OrderbookManager.getBestBid (OrderbookManager.update s d) =
        OrderbookManager.getBestBid s ∧
      OrderbookManager.getBestAsk (OrderbookManager.update s d) =
        OrderbookManager.getBestAsk s) ∧
    (s.lastUpdateId < d.u →
      (OrderbookManager.update s d).bids = d.b ∧
      (OrderbookManager.update s d).asks = d.a ∧
      (OrderbookManager.update s d).lastUpdateId = d.u) := by
  constructor
  · intro h
    have hs : OrderbookManager.update s d = s := by
      simp [OrderbookManager.update, h]
    exact ⟨hs, by rw [hs], by rw [hs]⟩
  · intro h
    simp [OrderbookManager.update, not_le.mpr h]

/-- Witness for `update_stale_frame`: a concrete stale diff (u = 5 ≤ 10) is a no-op,
and a concrete fresh diff (u = 11 > 10) replaces the arrays. -/
theorem update_stale_frame_witness :
    ((5 : ℤ) ≤ (10 : ℤ) ∧
      OrderbookManager.update
        { bids := [(100, 1)], asks := [(101, 1)], lastUpdateId := 10, timestamp := 0 }
        { E := 7, u := 5, b := [(99, 1)], a := [(102, 1)] } =
        { bids := [(100, 1)], asks := [(101, 1)], lastUpdateId := 10, timestamp := 0 }) ∧
    ((10 : ℤ) < (11 : ℤ) ∧
      (OrderbookManager.update
        { bids := [(100, 1)], asks := [(101, 1)], lastUpdateId := 10, timestamp := 0 }
        { E := 7, u := 11, b := [(99, 1)], a := [(102, 1)] }).bids = [(99, 1)]) := by
  refine ⟨⟨by decide, ?_⟩, ⟨by decide, ?_⟩⟩
  · exact ((update_stale_frame
      { bids := [(100, 1)], asks := [(101, 1)], lastUpdateId := 10, timestamp := 0 }
      { E := 7, u := 5, b := [(99, 1)], a := [(102, 1)] }).1 (by decide)).1
  · exact ((update_stale_frame
      { bids := [(100, 1)], asks := [(101, 1)], lastUpdateId := 10, timestamp := 0 }
      { E := 7, u := 11, b := [(99, 1)], a := [(102, 1)] }).2 (by decide)).1

/-- Claim C9: the derived price selectors read the 1-indexed book level for the given
direction (entry: bid for LONG / ask for SHORT; TP: ask for LONG / bid for SHORT;
SL: bid for LONG / ask for SHORT), and on the scenario-A snapshot
`getEntryPrice LONG 2 = 99999`, `getEntryPrice SHORT 2 = 100002`, while on the
scenario-B book `getTakeProfitPrice LONG 10 = 100010`, `getStopLossPrice LONG 8 = 99993`. -/
theorem price_selectors (s : OrderbookState) (n : ℤ) :
    (OrderbookManager.getEntryPrice s .LONG n = OrderbookManager.getBidAtLevel s n ∧
     OrderbookManager.getEntryPrice s .SHORT n = OrderbookManager.getAskAtLevel s n ∧
     OrderbookManager.getTakeProfitPrice s .LONG n = OrderbookManager.getAskAtLevel s n ∧
     OrderbookManager.getTakeProfitPrice s .SHORT n = OrderbookManager.getBidAtLevel s n ∧
     OrderbookManager.getStopLossPrice s .LONG n = OrderbookManager.getBidAtLevel s n ∧
     OrderbookManager.getStopLossPrice s .SHORT n = OrderbookManager.getAskAtLevel s n) ∧
    (OrderbookManager.getEntryPrice scenarioA .LONG 2 = some 99999 ∧
     OrderbookManager.getEntryPrice scenarioA .SHORT 2 = some 100002 ∧
     OrderbookManager.getTakeProfitPrice scenarioB .LONG 10 = some 100010 ∧
     OrderbookManager.getStopLossPrice scenarioB .LONG 8 = some 99993) := by
  refine ⟨⟨rfl, rfl, rfl, rfl, rfl, rfl⟩, ⟨?_, ?_, ?_, ?_⟩⟩ <;> decide

/-! ## Precision utilities (services/orders.ts, bot.ts) -/

/-- JS `Math.round`: round half toward +∞, `Math.round x = ⌊x + 1/2⌋`. -/
def jround (x : ℚ) : ℤ := ⌊x + 1/2⌋

/-- `roundToPrecision` (orders.ts lines 16-19):
`Math.round(value * 10^precision) / 10^precision`. -/
def roundToPrecision (value : ℚ) (precision : ℕ) : ℚ :=
  let factor : ℚ := 10 ^ precision
  (jround (value * factor) : ℚ) / factor

/-- A decimal step/tick-size string, e.g. "0.010" is `⟨0, [0, 1, 0]⟩`:
an integer part and the list of digits after the decimal point
(empty list = no decimal point). -/
structure DecString where
  intPart : ℕ
  fracDigits : List ℕ
deriving DecidableEq, Repr

/-- Numeric value of a fractional digit list, `digits / 10^length`. -/
def fracVal (ds : List ℕ) : ℚ :=
  ((ds.foldl (fun a d => 10 * a + d) 0 : ℕ) : ℚ) / 10 ^ ds.length

/-- `parseFloat` on the decimal string. -/
def DecString.toRat (s : DecString) : ℚ := s.intPart + fracVal s.fracDigits

/-- `stepSize.split('.')[1].replace(/0+$/, '')`: strip trailing zero digits. -/
def stripTrailingZeros (ds : List ℕ) : List ℕ :=
  (ds.reverse.dropWhile (fun d => d == 0)).reverse

/-- The precision computed in `roundToStepSize`/`roundToTickSize` (orders.ts):
number of fractional digits after stripping trailing zeros
(0 when the string has no decimal point, i.e. `fracDigits = []`). -/
def DecString.precision (s : DecString) : ℕ := (stripTrailingZeros s.fracDigits).length

/-- `roundToStepSize` (orders.ts lines 24-34): `Math.floor(quantity / step) * step`,
then `roundToPrecision` at the step string's own precision. -/
def roundToStepSize (quantity : ℚ) (stepSize : DecString) : ℚ :=
  let step := stepSize.toRat
  if step = 0 then quantity
  else
    let precision := stepSize.precision
    let rounded : ℚ := (⌊quantity / step⌋ : ℚ) * step
    roundToPrecision rounded precision

/-- Appending a zero digit does not change the value of a fractional digit list. -/
theorem fracVal_append_zero (ds : List ℕ) : fracVal (ds ++ [0]) = fracVal ds := by
  unfold fracVal
  rw [List.foldl_append]
  have h10 : ((10 : ℚ)) ^ ds.length ≠ 0 := by positivity
  simp only [List.foldl_cons, List.foldl_nil, Nat.add_zero, List.length_append,
    List.length_singleton]
  push_cast
  rw [pow_succ]
  field_simp
  ring

/-- Stripping trailing zeros preserves the value of the fractional part. -/
theorem fracVal_stripTrailingZeros (ds : List ℕ) :
    fracVal (stripTrailingZeros ds) = fracVal ds := by
  induction ds using List.reverseRecOn with
  | nil => rfl
  | append_singleton xs d ih =>
    rcases eq_or_ne d 0 with hd | hd
    · subst hd
      have h1 : stripTrailingZeros (xs ++ [0]) = stripTrailingZeros xs := by
        unfold stripTrailingZeros
        rw [List.reverse_append]
        simp [List.dropWhile_cons]
      rw [h1, ih, fracVal_append_zero]
    · have h2 : stripTrailingZeros (xs ++ [d]) = xs ++ [d] := by
        unfold stripTrailingZeros
        rw [List.reverse_append]
        simp only [List.reverse_singleton, List.singleton_append]
        rw [List.dropWhile_cons_of_neg (by simp [hd])]
        simp
      rw [h2]

/-- The stripped fractional value is an integer over `10 ^ precision`. -/
theorem toRat_mul_pow_precision (s : DecString) :
    ∃ m : ℕ, s.toRat = (m : ℚ) / 10 ^ s.precision := by
  refine ⟨s.intPart * 10 ^ s.precision +
    ((stripTrailingZeros s.fracDigits).foldl (fun a d => 10 * a + d) 0), ?_⟩
  have hv : s.toRat = s.intPart + fracVal (stripTrailingZeros s.fracDigits) := by
    rw [DecString.toRat, fracVal_stripTrailingZeros]
  rw [hv, fracVal, DecString.precision]
  have h10 : (10 : ℚ) ^ (stripTrailingZeros s.fracDigits).length ≠ 0 := by positivity
  field_simp

/-- `jround` of an integer-valued rational is that integer. -/
theorem jround_intCast (z : ℤ) : jround (z : ℚ) = z := by
  unfold jround
  rw [Int.floor_int_add]
  norm_num

/-- `roundToPrecision` is the identity on values that are exact at that precision. -/
theorem roundToPrecision_exact (v : ℚ) (p : ℕ) (n : ℤ) (h : v * 10 ^ p = (n : ℚ)) :
    roundToPrecision v p = v := by
  unfold roundToPrecision
  simp only [h, jround_intCast]
  have h10 : ((10 : ℚ) ^ p) ≠ 0 := by positivity
  rw [← h, mul_div_cancel_right₀ v h10]

/-- Claim C7: for a non-negative quantity and a positive decimal step-size string,
`roundToStepSize` returns the floored multiple `⌊qty/step⌋ · step`, which is ≤ qty,
an exact integer multiple of the step, and exact at the step's own stripped decimal
precision (never rounds up). -/
theorem roundToStepSize_floors (q : ℚ) (s : DecString) (hq : 0 ≤ q) (hs : 0 < s.toRat) :
    roundToStepSize q s = (⌊q / s.toRat⌋ : ℚ) * s.toRat ∧
    roundToStepSize q s ≤ q ∧
    (∃ k : ℤ, roundToStepSize q s = (k : ℚ) * s.toRat ∧ 0 ≤ k) ∧
    (∃ n : ℤ, roundToStepSize q s * 10 ^ s.precision = (n : ℚ)) := by
  obtain ⟨m, hm⟩ := toRat_mul_pow_precision s
  have hne : s.toRat ≠ 0 := ne_of_gt hs
  have hpow : ((10 : ℚ) ^ s.precision) ≠ 0 := by positivity
  have hexact : ((⌊q / s.toRat⌋ : ℚ) * s.toRat) * 10 ^ s.precision =
      ((⌊q / s.toRat⌋ * m : ℤ) : ℚ) := by
    rw [hm]
    push_cast
    field_simp
  have hval : roundToStepSize q s = (⌊q / s.toRat⌋ : ℚ) * s.toRat := by
    unfold roundToStepSize
    rw [if_neg hne]
    exact roundToPrecision_exact _ _ _ hexact
  refine ⟨hval, ?_, ?_, ?_⟩
  · rw [hval]
    calc (⌊q / s.toRat⌋ : ℚ) * s.toRat
        ≤ (q / s.toRat) * s.toRat := by
          exact mul_le_mul_of_nonneg_right (Int.floor_le _) (le_of_lt hs)
      _ = q := by field_simp
  · refine ⟨⌊q / s.toRat⌋, hval, ?_⟩
    exact Int.floor_nonneg.mpr (div_nonneg hq (le_of_lt hs))
  · exact ⟨⌊q / s.toRat⌋ * m, by rw [hval]; exact hexact⟩

/-- Witness for `roundToStepSize_floors`: qty = 0.25 and step string "0.10"
(value 1/10, precision 1). -/
theorem roundToStepSize_floors_witness :
    (0 : ℚ) ≤ 1/4 ∧ (0 : ℚ) < DecString.toRat ⟨0, [1, 0]⟩ ∧
    (roundToStepSize (1/4) ⟨0, [1, 0]⟩ =
        (⌊(1/4 : ℚ) / DecString.toRat ⟨0, [1, 0]⟩⌋ : ℚ) * DecString.toRat ⟨0, [1, 0]⟩ ∧
      roundToStepSize (1/4) ⟨0, [1, 0]⟩ ≤ 1/4 ∧
      (∃ k : ℤ, roundToStepSize (1/4) ⟨0, [1, 0]⟩ =
          (k : ℚ) * DecString.toRat ⟨0, [1, 0]⟩ ∧ 0 ≤ k) ∧
      (∃ n : ℤ, roundToStepSize (1/4) ⟨0, [1, 0]⟩ *
          10 ^ DecString.precision ⟨0, [1, 0]⟩ = (n : ℚ))) := by
  refine ⟨by norm_num, by norm_num [DecString.toRat, fracVal], ?_⟩
  exact roundToStepSize_floors (1/4) ⟨0, [1, 0]⟩ (by norm_num)
    (by norm_num [DecString.toRat, fracVal])

/-! ## Order lifecycle monitoring (bot.ts monitorEntryOrder, orders.ts waitForFill) -/

/-- Exchange order status as queried by `queryOrder`. -/
inductive OrderStatus where
  | NEW
  | PART_FILLED
  | FILLED
  | CANCELED
  | EXPIRED
deriving DecidableEq, Repr

/-- An order-status snapshot returned by one `queryOrder` poll. -/
structure OrderSnapshot where
  status : OrderStatus
  avgPrice : ℚ
  executedQty : ℚ
deriving DecidableEq, Repr

/-- Terminal statuses of the order lifecycle. -/
def OrderStatus.isTerminal : OrderStatus → Bool
  | .FILLED => true
  | .CANCELED => true
  | .EXPIRED => true
  | _ => false

/-- `TradingBot.monitorEntryOrder` (bot.ts lines 228-269), abstracted over the
sequence of poll results observed before the timeout expires: the first FILLED poll
returns the fill (avgPrice, executedQty); the first CANCELED/EXPIRED poll returns
not-filled; if the list is exhausted (timeout), the code cancels the order and
returns not-filled unconditionally. `OrderService.waitForFill` (orders.ts) has the
same structure. -/
def monitorEntryOrder : List OrderSnapshot → Option (ℚ × ℚ)
  | [] => none
  | o :: rest =>
    if o.status = .FILLED then some (o.avgPrice, o.executedQty)
    else if o.status = .CANCELED ∨ o.status = .EXPIRED then none
    else monitorEntryOrder rest

/-- A poll may observe `s` during an execution whose final exchange-side status is
`final`: any non-terminal status, or the final status itself. -/
def canPrecede (s final : OrderStatus) : Bool :=
  s == .NEW || s == .PART_FILLED || s == final

/-- An execution of the entry-monitoring step: `polls` is the sequence of statuses
observed at the polls that fit inside the timeout window, `final` the order's
eventual exchange-side terminal status (which may be reached only after the last
poll, e.g. a fill racing the timeout cancel). -/
def ConsistentExec (polls : List OrderSnapshot) (final : OrderStatus) : Bool :=
  final.isTerminal && polls.all (fun o => canPrecede o.status final)

/-- Counterexample to claim C3: the execution in which one in-window poll sees NEW and
the order then fills as the timeout cancel races it (final exchange-side status FILLED)
is consistent, yet `monitorEntryOrder` reports not-filled (`none`) — the late fill is
silently dropped, contradicting the claim that a FILLED final status is never reported
as not-filled. -/
theorem monitorEntryOrder_late_fill_dropped :
    ConsistentExec [{ status := .NEW, avgPrice := 0, executedQty := 0 }] .FILLED = true ∧
    monitorEntryOrder [{ status := .NEW, avgPrice := 0, executedQty := 0 }] = none := by
  exact ⟨by decide, by decide⟩

/-- Claim C3 (amended): `monitorEntryOrder` honors a fill exactly when a FILLED status
is observed by one of its polls inside the timeout window — it returns the fill data of
the first terminal poll when that status is FILLED, not-filled when it is
CANCELED/EXPIRED, and on timeout (no terminal status observed) it cancels and reports
not-filled, even if the order's final exchange-side status is FILLED. -/
theorem monitorEntryOrder_first_terminal (polls : List OrderSnapshot) :
    monitorEntryOrder polls =
      match polls.find? (fun o => o.status.isTerminal) with
      | some o => if o.status = .FILLED then some (o.avgPrice, o.executedQty) else none
      | none => none := by
  induction polls with
  | nil => rfl
  | cons o rest ih =>
    rw [monitorEntryOrder, List.find?]
    cases h : o.status <;>
      simp_all [OrderStatus.isTerminal, monitorEntryOrder]

/-! ## Direction bias and trade counters (bot.ts monitorTpSlOrders, lines 390-423) -/

/-- Outcome of one completed trade cycle as decided by `monitorTpSlOrders`:
TP FILLED ⇒ WIN, TP CANCELED/EXPIRED ⇒ LOSS. -/
inductive CycleOutcome where
  | WIN
  | LOSS
deriving DecidableEq, Repr

/-- The TradingBot trade-tracking fields mutated by `monitorTpSlOrders`. -/
structure BotCounters where
  direction : Direction
  consecutiveLosses : ℕ
  totalWins : ℕ
  totalLosses : ℕ
deriving DecidableEq, Repr

/-- The counter/direction update performed by `monitorTpSlOrders` on a completed trade
(bot.ts lines 390-423): WIN increments `totalWins` and zeroes `consecutiveLosses`;
LOSS increments `totalLosses` and `consecutiveLosses`, then, when
`consecutiveLosses >= directionSwitchLosses`, flips the direction and resets the
counter to 0. -/
def tradeOutcomeStep (switchLosses : ℕ) (s : BotCounters) : CycleOutcome → BotCounters
  | .WIN => { s with totalWins := s.totalWins + 1, consecutiveLosses := 0 }
  | .LOSS =>
    let cl := s.consecutiveLosses + 1
    if switchLosses ≤ cl then
      { s with totalLosses := s.totalLosses + 1, consecutiveLosses := 0,
               direction := s.direction.flip }
    else
      { s with totalLosses := s.totalLosses + 1, consecutiveLosses := cl }

/-- The bot's initial counters: configured initial direction, all counters zero. -/
def initCounters (d : Direction) : BotCounters :=
  { direction := d, consecutiveLosses := 0, totalWins := 0, totalLosses := 0 }

/-- A sequence of completed trades processed by `monitorTpSlOrders`. -/
def runTrades (switchLosses : ℕ) (s : BotCounters) (rs : List CycleOutcome) : BotCounters :=
  rs.foldl (tradeOutcomeStep switchLosses) s

/-- One step leaves the consecutive-loss counter strictly below the threshold. -/
theorem tradeOutcomeStep_cl_lt (th : ℕ) (h : 1 ≤ th) (s : BotCounters) (r : CycleOutcome) :
    (tradeOutcomeStep th s r).consecutiveLosses < th := by
  cases r with
  | WIN => simpa [tradeOutcomeStep] using h
  | LOSS =>
    rw [tradeOutcomeStep]
    split
    · simpa using h
    · simp only
      omega

/-- Any reachable state has its consecutive-loss counter strictly below the threshold. -/
theorem runTrades_cl_lt (th : ℕ) (h : 1 ≤ th) (d : Direction) (rs : List CycleOutcome) :
    (runTrades th (initCounters d) rs).consecutiveLosses < th := by
  suffices hgen : ∀ (s : BotCounters), s.consecutiveLosses < th →
      (runTrades th s rs).consecutiveLosses < th by
    exact hgen (initCounters d) (by simpa [initCounters] using h)
  induction rs with
  | nil => intro s hs; exact hs
  | cons r rest ih =>
    intro s _
    exact ih _ (tradeOutcomeStep_cl_lt th h s r)

/-- `Direction.flip` never returns its argument. -/
theorem Direction.flip_ne (d : Direction) : d.flip ≠ d := by
  cases d <;> simp [Direction.flip]

/-- Claim C4: over every sequence of completed trades (starting from the configured
initial direction with a zeroed counter, threshold ≥ 1 as enforced by the config
schema), the direction flips at the next trade exactly when that trade is a LOSS that
brings the consecutive-loss counter to the threshold, and whenever it flips, the
counter is reset to 0 — so one threshold crossing never causes two flips. -/
theorem direction_flip_iff (th : ℕ) (h : 1 ≤ th) (d : Direction)
    (rs : List CycleOutcome) (r : CycleOutcome) :
    ((tradeOutcomeStep th (runTrades th (initCounters d) rs) r).direction ≠
        (runTrades th (initCounters d) rs).direction ↔
      (r = .LOSS ∧ (runTrades th (initCounters d) rs).consecutiveLosses + 1 = th)) ∧
    ((tradeOutcomeStep th (runTrades th (initCounters d) rs) r).direction ≠
        (runTrades th (initCounters d) rs).direction →
      (tradeOutcomeStep th (runTrades th (initCounters d) rs) r).consecutiveLosses = 0) := by
  set s := runTrades th (initCounters d) rs
  have hcl : s.consecutiveLosses < th := runTrades_cl_lt th h d rs
  cases r with
  | WIN =>
    refine ⟨?_, ?_⟩
    · simp [tradeOutcomeStep]
    · intro hne
      simp [tradeOutcomeStep] at hne
  | LOSS =>
    by_cases hth : th ≤ s.consecutiveLosses + 1
    · have heq : s.consecutiveLosses + 1 = th := le_antisymm hcl hth
      have hstep : tradeOutcomeStep th s .LOSS =
          { s with totalLosses := s.totalLosses + 1, consecutiveLosses := 0,
                   direction := s.direction.flip } := by
        simp [tradeOutcomeStep, hth]
      rw [hstep]
      exact ⟨⟨fun _ => ⟨rfl, heq⟩, fun _ => Direction.flip_ne s.direction⟩, fun _ => rfl⟩
    · have hstep : tradeOutcomeStep th s .LOSS =
          { s with totalLosses := s.totalLosses + 1,
                   consecutiveLosses := s.consecutiveLosses + 1 } := by
        simp [tradeOutcomeStep, hth]
      rw [hstep]
      refine ⟨⟨fun hne => absurd rfl hne, ?_⟩, fun hne => absurd rfl hne⟩
      rintro ⟨-, heq⟩
      omega

/-- Witness for `direction_flip_iff`: threshold 2, initial LONG, history [LOSS],
next trade LOSS — the flip condition is exercised at a concrete input. -/
theorem direction_flip_iff_witness :
    (1 ≤ 2) ∧
    (((tradeOutcomeStep 2 (runTrades 2 (initCounters .LONG) [.LOSS]) .LOSS).direction ≠
        (runTrades 2 (initCounters .LONG) [.LOSS]).direction ↔
      (CycleOutcome.LOSS = .LOSS ∧
        (runTrades 2 (initCounters .LONG) [.LOSS]).consecutiveLosses + 1 = 2)) ∧
    ((tradeOutcomeStep 2 (runTrades 2 (initCounters .LONG) [.LOSS]) .LOSS).direction ≠
        (runTrades 2 (initCounters .LONG) [.LOSS]).direction →
      (tradeOutcomeStep 2 (runTrades 2 (initCounters .LONG) [.LOSS]) .LOSS).consecutiveLosses
        = 0)) :=
  ⟨by decide, direction_flip_iff 2 (by decide) .LONG [.LOSS] .LOSS⟩

/-! ## Bracket placement (bot.ts placeTpSlOrders, lines 274-371) -/

/-- Order side. -/
inductive Side where
  | BUY
  | SELL
deriving DecidableEq, Repr

/-- Order type of a placement request. -/
inductive OrderKind where
  | LIMIT
  | MARKET
  | STOP_MARKET
deriving DecidableEq, Repr

/-- Strategy selection, `StrategySchema = z.enum(['orderbook', 'risk_reward'])`. -/
inductive Strategy where
  | orderbook
  | risk_reward
deriving DecidableEq, Repr

/-- A placement request sent to the order-placement interface (`client.placeOrder` /
`client.placeStopLossAlgoOrder`). For the SL algo order, `price` is its
trigger/stop price, `quantity` is 0 and `closePosition` is true, matching
`placeStopLossAlgoOrder` (rest.ts lines 481-497). -/
structure OrderRequest where
  side : Side
  kind : OrderKind
  price : ℚ
  quantity : ℚ
  reduceOnly : Bool
  closePosition : Bool
deriving DecidableEq, Repr

/-- The configuration fields consumed by `placeTpSlOrders`. -/
structure BracketConfig where
  strategy : Strategy
  slDistancePercent : ℚ
  riskRewardRatio : ℚ
  tpLevel : ℤ
  slLevel : ℤ
deriving DecidableEq, Repr

/-- The TradingBot precision fields set from exchange info (bot.ts lines 22-24). -/
structure BotParams where
  direction : Direction
  pricePrecision : ℕ
  quantityPrecision : ℕ
  tickSize : ℚ
deriving DecidableEq, Repr

/-- `TradingBot.formatPrice` (bot.ts lines 97-103): round to the tick size
(`Math.round(price / tickSize) * tickSize`), then round the result to the price
precision (`Math.round(rounded * 10^pp) / 10^pp`). -/
def formatPrice (pricePrecision : ℕ) (tickSize : ℚ) (price : ℚ) : ℚ :=
  (jround ((jround (price / tickSize) : ℚ) * tickSize * 10 ^ pricePrecision) : ℚ) /
    10 ^ pricePrecision

/-- `TradingBot.formatQuantity` (bot.ts lines 108-111):
`Math.floor(quantity * 10^qp) / 10^qp`. -/
def formatQuantity (quantityPrecision : ℕ) (quantity : ℚ) : ℚ :=
  (⌊quantity * 10 ^ quantityPrecision⌋ : ℚ) / 10 ^ quantityPrecision

/-- `jround` evaluated at an integer-valued rational. -/
theorem jround_eq_of_intCast (x : ℚ) (k : ℤ) (h : x = (k : ℚ)) : jround x = k := by
  rw [h, jround_intCast]

/-- `formatPrice` is the identity on prices that are exact multiples of the tick size
and exact at the price precision. -/
theorem formatPrice_exact (pp : ℕ) (tick x : ℚ) (k n : ℤ) (htick : tick ≠ 0)
    (hk : x / tick = (k : ℚ)) (hn : x * 10 ^ pp = (n : ℚ)) :
    formatPrice pp tick x = x := by
  unfold formatPrice
  rw [jround_eq_of_intCast _ k hk]
  have hx : (k : ℚ) * tick = x := by rw [← hk, div_mul_cancel₀ _ htick]
  rw [hx, jround_eq_of_intCast _ n hn, ← hn]
  have hp : ((10 : ℚ) ^ pp) ≠ 0 := by positivity
  rw [mul_div_cancel_right₀ _ hp]

/-- `formatQuantity` is the identity on quantities exact at the quantity precision. -/
theorem formatQuantity_exact (qp : ℕ) (q : ℚ) (n : ℤ) (hn : q * 10 ^ qp = (n : ℚ)) :
    formatQuantity qp q = q := by
  unfold formatQuantity
  rw [hn, Int.floor_intCast, ← hn]
  have hp : ((10 : ℚ) ^ qp) ≠ 0 := by positivity
  rw [mul_div_cancel_right₀ _ hp]

/-- The TP/SL price computation of `placeTpSlOrders` (bot.ts lines 281-319):
risk_reward strategy computes distances from the entry price; orderbook strategy
reads deep book levels, failing (None) when a level is unavailable. -/
def computeTpSlPrices (cfg : BracketConfig) (direction : Direction) (ob : OrderbookState)
    (entryPrice : ℚ) : Option (ℚ × ℚ) :=
  match cfg.strategy with
  | .risk_reward =>
    let slDistance := entryPrice * (cfg.slDistancePercent / 100)
    let tpDistance := slDistance * cfg.riskRewardRatio
    match direction with
    | .LONG => some (entryPrice + tpDistance, entryPrice - slDistance)
    | .SHORT => some (entryPrice - tpDistance, entryPrice + slDistance)
  | .orderbook =>
    match OrderbookManager.getTakeProfitPrice ob direction cfg.tpLevel with
    | none => none
    | some tp =>
      match OrderbookManager.getStopLossPrice ob direction cfg.slLevel with
      | none => none
      | some sl => some (tp, sl)

/-- `TradingBot.placeTpSlOrders` (bot.ts lines 274-371), modelled as the sequence of
placement requests it issues on the path where both placement RPCs succeed, paired
with the returned (tpPrice, slPrice). The TP LIMIT reduce-only order is submitted
first, then the SL STOP_MARKET algo order; no validation of the computed prices is
performed before submission. -/
def placeTpSlOrders (cfg : BracketConfig) (bot : BotParams) (ob : OrderbookState)
    (entryPrice quantity : ℚ) : List OrderRequest × Option (ℚ × ℚ) :=
  match computeTpSlPrices cfg bot.direction ob entryPrice with
  | none => ([], none)
  | some (tpPrice, slPrice) =>
    let exitSide := match bot.direction with | .LONG => Side.SELL | .SHORT => Side.BUY
    let fTp := formatPrice bot.pricePrecision bot.tickSize tpPrice
    let fSl := formatPrice bot.pricePrecision bot.tickSize slPrice
    let fQ := formatQuantity bot.quantityPrecision quantity
    ([{ side := exitSide, kind := .LIMIT, price := fTp, quantity := fQ,
        reduceOnly := true, closePosition := false },
      { side := exitSide, kind := .STOP_MARKET, price := fSl, quantity := 0,
        reduceOnly := false, closePosition := true }],
     some (tpPrice, slPrice))

/-- Orderbook strategy config used in the C2 counterexample: tpLevel 10, slLevel 8
(the defaults). -/
def cfgOrderbookCE : BracketConfig :=
  { strategy := .orderbook, slDistancePercent := 1/10, riskRewardRatio := 2,
    tpLevel := 10, slLevel := 8 }

/-- Bot params used in the counterexamples: LONG, pricePrecision 2, tick 0.01. -/
def botLongCE : BotParams :=
  { direction := .LONG, pricePrecision := 2, quantityPrecision := 3, tickSize := 1/100 }

/-- A book that has fallen below a LONG entry filled at 100000: bids 99890..99881,
asks 99900..99909. Every ask level, including the TP level 10 (99909), is below the
entry price, so the computed bracket is inverted (tp < entry). -/
def fallenBook : OrderbookState :=
  { bids := [(99890, 1), (99889, 1), (99888, 1), (99887, 1), (99886, 1),
             (99885, 1), (99884, 1), (99883, 1), (99882, 1), (99881, 1)]
    asks := [(99900, 1), (99901, 1), (99902, 1), (99903, 1), (99904, 1),
             (99905, 1), (99906, 1), (99907, 1), (99908, 1), (99909, 1)]
    lastUpdateId := 777
    timestamp := 0 }

/-- Counterexample to claim C2: with the orderbook strategy, a LONG entry filled at
100000 and the book now entirely below the entry, `validateTPSLPrices` rejects the
computed bracket (tp = 99909 ≤ entry), yet `placeTpSlOrders` still submits the TP
LIMIT order (and the SL order) to the order-placement interface — the validation
routine is never invoked on the bracket-placement path, and an inverted bracket is
sent. -/
theorem placeTpSlOrders_skips_validation :
    (OrderbookManager.validateTPSLPrices .LONG 100000 99909 99883).tpValid = false ∧
    (placeTpSlOrders cfgOrderbookCE botLongCE fallenBook 100000 1).1 =
      [{ side := .SELL, kind := .LIMIT, price := 99909, quantity := 1,
         reduceOnly := true, closePosition := false },
       { side := .SELL, kind := .STOP_MARKET, price := 99883, quantity := 0,
         reduceOnly := false, closePosition := true }] := by
  constructor
  · decide
  · have htp : computeTpSlPrices cfgOrderbookCE .LONG fallenBook 100000 =
        some (99909, 99883) := by decide
    have h909 : formatPrice 2 (1/100) 99909 = 99909 :=
      formatPrice_exact 2 (1/100) 99909 9990900 9990900 (by norm_num) (by norm_num)
        (by norm_num)
    have h883 : formatPrice 2 (1/100) 99883 = 99883 :=
      formatPrice_exact 2 (1/100) 99883 9988300 9988300 (by norm_num) (by norm_num)
        (by norm_num)
    have hq : formatQuantity 3 1 = 1 :=
      formatQuantity_exact 3 1 1000 (by norm_num)
    simp only [placeTpSlOrders, botLongCE, htp, h909, h883, hq]

/-- Claim C2 (amended): `validateTPSLPrices` does implement the ordering invariant —
it accepts exactly the brackets with tp > entry > sl for LONG and tp < entry < sl for
SHORT — but `placeTpSlOrders` never invokes it, so an inverted bracket can still be
submitted (the routine is exercised only by the test suite). -/
theorem validateTPSLPrices_ordering (direction : Direction) (e tp sl : ℚ) :
    ((OrderbookManager.validateTPSLPrices direction e tp sl).tpValid = true ∧
     (OrderbookManager.validateTPSLPrices direction e tp sl).slValid = true) ↔
    (match direction with
     | .LONG => e < tp ∧ sl < e
     | .SHORT => tp < e ∧ e < sl) := by
  cases direction <;>
    simp [OrderbookManager.validateTPSLPrices, and_comm]

/-- Risk-reward strategy config of scenario C: `riskRewardRatio = 2`,
`slDistancePercent = 0.1`. -/
def cfgRiskReward : BracketConfig :=
  { strategy := .risk_reward, slDistancePercent := 1/10, riskRewardRatio := 2,
    tpLevel := 10, slLevel := 8 }

/-- An empty book (the risk_reward path never reads the book). -/
def emptyBook : OrderbookState :=
  { bids := [], asks := [], lastUpdateId := 0, timestamp := 0 }

/-- Claim C8: under the risk_reward strategy the bracket is
`slDistance = entry · slDistancePercent/100`, `tpDistance = slDistance · riskRewardRatio`,
`tp/sl = entry ± distance` by direction; concretely, a LONG entry filled at 50000 with
ratio 2 and slDistancePercent 0.1 yields tp = 50100 and sl = 49950, and those are the
prices of the submitted TP/SL orders. -/
theorem riskReward_bracket (cfg : BracketConfig) (d : Direction) (ob : OrderbookState)
    (e : ℚ) (hs : cfg.strategy = .risk_reward) :
    (computeTpSlPrices cfg d ob e =
      some (match d with
        | .LONG => (e + e * (cfg.slDistancePercent / 100) * cfg.riskRewardRatio,
                    e - e * (cfg.slDistancePercent / 100))
        | .SHORT => (e - e * (cfg.slDistancePercent / 100) * cfg.riskRewardRatio,
                     e + e * (cfg.slDistancePercent / 100)))) ∧
    computeTpSlPrices cfgRiskReward .LONG emptyBook 50000 = some (50100, 49950) ∧
    (placeTpSlOrders cfgRiskReward botLongCE emptyBook 50000 (1/1000)).1 =
      [{ side := .SELL, kind := .LIMIT, price := 50100, quantity := 1/1000,
         reduceOnly := true, closePosition := false },
       { side := .SELL, kind := .STOP_MARKET, price := 49950, quantity := 0,
         reduceOnly := false, closePosition := true }] := by
  have hconc : computeTpSlPrices cfgRiskReward .LONG emptyBook 50000 =
      some (50100, 49950) := by
    show some _ = _
    norm_num [cfgRiskReward]
  refine ⟨?_, hconc, ?_⟩
  · cases d <;> simp [computeTpSlPrices, hs]
  · have h50100 : formatPrice 2 (1/100) 50100 = 50100 :=
      formatPrice_exact 2 (1/100) 50100 5010000 5010000 (by norm_num) (by norm_num)
        (by norm_num)
    have h49950 : formatPrice 2 (1/100) 49950 = 49950 :=
      formatPrice_exact 2 (1/100) 49950 4995000 4995000 (by norm_num) (by norm_num)
        (by norm_num)
    have hq : formatQuantity 3 (1/1000) = 1/1000 :=
      formatQuantity_exact 3 (1/1000) 1 (by norm_num)
    simp only [placeTpSlOrders, botLongCE, hconc, h50100, h49950, hq]

/-- Witness for `riskReward_bracket`: the scenario-C input itself. -/
theorem riskReward_bracket_witness :
    cfgRiskReward.strategy = .risk_reward ∧
    ((computeTpSlPrices cfgRiskReward .LONG emptyBook 50000 =
        some (50000 + 50000 * ((1/10) / 100) * 2, 50000 - 50000 * ((1/10) / 100))) ∧
      computeTpSlPrices cfgRiskReward .LONG emptyBook 50000 = some (50100, 49950) ∧
      (placeTpSlOrders cfgRiskReward botLongCE emptyBook 50000 (1/1000)).1 =
        [{ side := .SELL, kind := .LIMIT, price := 50100, quantity := 1/1000,
           reduceOnly := true, closePosition := false },
         { side := .SELL, kind := .STOP_MARKET, price := 49950, quantity := 0,
           reduceOnly := false, closePosition := true }]) :=
  ⟨rfl, riskReward_bracket cfgRiskReward .LONG emptyBook 50000 rfl⟩

/-! ## Bot state manager (state.ts) and fees (types/trade.ts) -/

/-- Trade result recorded by `completeTrade`. -/
inductive TradeResult where
  | WIN
  | LOSS
  | TIMEOUT
deriving DecidableEq, Repr

/-- Exit order flavor used by `calculateFees`. -/
inductive ExitType where
  | TP
  | SL
  | TIMEOUT
deriving DecidableEq, Repr

/-- `FEE_RATES.MAKER = 0.0002` (types/trade.ts). -/
def FEE_RATES_MAKER : ℚ := 2/10000

/-- `FEE_RATES.TAKER = 0.0005` (types/trade.ts). -/
def FEE_RATES_TAKER : ℚ := 5/10000

/-- `calculateFees` (types/trade.ts lines 59-76): maker fee on the entry leg; TP exit
pays maker, SL and TIMEOUT exits pay taker. -/
def calculateFees (entryPrice exitPrice quantity : ℚ) (exitType : ExitType) : ℚ :=
  let entryNotional := entryPrice * quantity
  let exitNotional := exitPrice * quantity
  let entryFee := entryNotional * FEE_RATES_MAKER
  let exitFeeRate := match exitType with
    | .TP => FEE_RATES_MAKER
    | _ => FEE_RATES_TAKER
  entryFee + exitNotional * exitFeeRate

/-- `TradeRecord` (types/trade.ts): one round trip; exit fields are filled in by
`completeTrade`. -/
structure TradeRecord where
  id : String
  entryTime : ℤ
  exitTime : Option ℤ
  direction : Direction
  entryPrice : ℚ
  exitPrice : Option ℚ
  quantity : ℚ
  tpPrice : ℚ
  slPrice : ℚ
  result : Option TradeResult
  pnl : Option ℚ
  pnlAfterFees : Option ℚ
  fees : Option ℚ
deriving DecidableEq, Repr

/-- The mutable fields of `BotStateManager` (state.ts lines 10-28). -/
structure ManagerState where
  isRunning : Bool
  direction : Direction
  currentTrade : Option TradeRecord
  trades : List TradeRecord
  consecutiveLosses : ℕ
  totalWins : ℕ
  totalLosses : ℕ
  totalVolume : ℚ
  totalPnl : ℚ
  totalFees : ℚ
  forceCloseCount : ℕ
  forceClosePnL : ℚ
  takerFees : ℚ
deriving DecidableEq, Repr

/-- `BotStateManager.completeTrade` (state.ts lines 114-162), with `now` the call's
`Date.now()`: no-op returning null when no trade is open; otherwise finalize the
record (exit price/time, result, P&L, fees), update the aggregate stats — the WIN
branch increments `totalWins` and zeroes `consecutiveLosses`, every other result
increments `totalLosses` and `consecutiveLosses` — push the record onto the bounded
history, and clear `currentTrade`. -/
def completeTrade (s : ManagerState) (now : ℤ) (exitPrice : ℚ) (result : TradeResult) :
    ManagerState × Option TradeRecord :=
  match s.currentTrade with
  | none => (s, none)
  | some t =>
    let priceDiff := match t.direction with
      | .LONG => exitPrice - t.entryPrice
      | .SHORT => t.entryPrice - exitPrice
    let pnl := priceDiff * t.quantity
    let exitType := match result with
      | .WIN => ExitType.TP
      | .LOSS => ExitType.SL
      | .TIMEOUT => ExitType.TIMEOUT
    let fees := calculateFees t.entryPrice exitPrice t.quantity exitType
    let t2 := { t with
      exitTime := some now
      exitPrice := some exitPrice
      result := some result
      pnl := some pnl
      fees := some fees
      pnlAfterFees := some (pnl - fees) }
    let hist := t2 :: s.trades
    ({ s with
        totalPnl := s.totalPnl + pnl
        totalFees := s.totalFees + fees
        totalVolume := s.totalVolume + exitPrice * t.quantity
        totalWins := if result = .WIN then s.totalWins + 1 else s.totalWins
        consecutiveLosses := if result = .WIN then 0 else s.consecutiveLosses + 1
        totalLosses := if result = .WIN then s.totalLosses else s.totalLosses + 1
        trades := if 100 < hist.length then hist.dropLast else hist
        currentTrade := none },
     some t2)

/-- Claim C5: completing an open trade with WIN increments `totalWins` by exactly 1
and resets `consecutiveLosses` to 0 (leaving `totalLosses` unchanged); completing it
with LOSS increments `totalLosses` by exactly 1 and `consecutiveLosses` by exactly 1
(leaving `totalWins` unchanged). -/
theorem completeTrade_win_loss (s : ManagerState) (now : ℤ) (xp : ℚ) (t : TradeRecord)
    (h : s.currentTrade = some t) :
    ((completeTrade s now xp .WIN).1.totalWins = s.totalWins + 1 ∧
     (completeTrade s now xp .WIN).1.consecutiveLosses = 0 ∧
     (completeTrade s now xp .WIN).1.totalLosses = s.totalLosses) ∧
    ((completeTrade s now xp .LOSS).1.totalLosses = s.totalLosses + 1 ∧
     (completeTrade s now xp .LOSS).1.consecutiveLosses = s.consecutiveLosses + 1 ∧
     (completeTrade s now xp .LOSS).1.totalWins = s.totalWins) := by
  simp [completeTrade, h]

/-- Claim C10: completing an open trade with TIMEOUT takes the loss branch —
`totalLosses` and `consecutiveLosses` each increase by exactly 1 — and the win branch
(`totalWins` changing) is taken only for result WIN. -/
theorem completeTrade_timeout (s : ManagerState) (now : ℤ) (xp : ℚ) (t : TradeRecord)
    (h : s.currentTrade = some t) :
    (completeTrade s now xp .TIMEOUT).1.totalLosses = s.totalLosses + 1 ∧
    (completeTrade s now xp .TIMEOUT).1.consecutiveLosses = s.consecutiveLosses + 1 ∧
    (completeTrade s now xp .TIMEOUT).1.totalWins = s.totalWins ∧
    (∀ r : TradeResult, (completeTrade s now xp r).1.totalWins ≠ s.totalWins → r = .WIN) := by
  refine ⟨by simp [completeTrade, h], by simp [completeTrade, h], by simp [completeTrade, h], ?_⟩
  intro r hr
  cases r with
  | WIN => rfl
  | LOSS => exact absurd (by simp [completeTrade, h]) hr
  | TIMEOUT => exact absurd (by simp [completeTrade, h]) hr

/-- A concrete open trade for the witnesses. -/
def sampleTrade : TradeRecord :=
  { id := "t1", entryTime := 0, exitTime := none, direction := .LONG, entryPrice := 100,
    exitPrice := none, quantity := 1, tpPrice := 110, slPrice := 95, result := none,
    pnl := none, pnlAfterFees := none, fees := none }

/-- A concrete manager state with `sampleTrade` open. -/
def sampleManager : ManagerState :=
  { isRunning := true, direction := .LONG, currentTrade := some sampleTrade, trades := [],
    consecutiveLosses := 2, totalWins := 3, totalLosses := 4, totalVolume := 0,
    totalPnl := 0, totalFees := 0, forceCloseCount := 0, forceClosePnL := 0,
    takerFees := 0 }

/-- Witness for `completeTrade_win_loss` at `sampleManager`, exit price 110. -/
theorem completeTrade_win_loss_witness :
    sampleManager.currentTrade = some sampleTrade ∧
    (((completeTrade sampleManager 5 110 .WIN).1.totalWins =
        sampleManager.totalWins + 1 ∧
      (completeTrade sampleManager 5 110 .WIN).1.consecutiveLosses = 0 ∧
      (completeTrade sampleManager 5 110 .WIN).1.totalLosses = sampleManager.totalLosses) ∧
     ((completeTrade sampleManager 5 110 .LOSS).1.totalLosses =
        sampleManager.totalLosses + 1 ∧
      (completeTrade sampleManager 5 110 .LOSS).1.consecutiveLosses =
        sampleManager.consecutiveLosses + 1 ∧
      (completeTrade sampleManager 5 110 .LOSS).1.totalWins = sampleManager.totalWins)) :=
  ⟨rfl, completeTrade_win_loss sampleManager 5 110 sampleTrade rfl⟩

/-- Witness for `completeTrade_timeout` at `sampleManager`, exit price 95. -/
theorem completeTrade_timeout_witness :
    sampleManager.currentTrade = some sampleTrade ∧
    ((completeTrade sampleManager 5 95 .TIMEOUT).1.totalLosses =
        sampleManager.totalLosses + 1 ∧
     (completeTrade sampleManager 5 95 .TIMEOUT).1.consecutiveLosses =
        sampleManager.consecutiveLosses + 1 ∧
     (completeTrade sampleManager 5 95 .TIMEOUT).1.totalWins = sampleManager.totalWins ∧
     (∀ r : TradeResult,
        (completeTrade sampleManager 5 95 r).1.totalWins ≠ sampleManager.totalWins →
        r = .WIN)) :=
  ⟨rfl, completeTrade_timeout sampleManager 5 95 sampleTrade rfl⟩

/-! ## Circuit breaker (micro-grid.ts checkCircuitBreaker, lines 725-751) -/

/-- `MicroGridStrategy.checkCircuitBreaker` (micro-grid.ts lines 725-751) as a function
of the strategy fields it reads: trips when daily P&L is negative and the loss
fraction of the estimated balance (with a 1000 fallback for an unset start balance)
reaches the daily loss limit, or when consecutive losses reach the configured
maximum. -/
def checkCircuitBreaker (dailyPnL dailyStartBalance dailyLossLimit : ℚ)
    (consecutiveLosses maxConsecutiveLosses : ℕ) : Bool :=
  let estimatedBalance := if dailyStartBalance > 0 then dailyStartBalance else 1000
  let lossPercent := |dailyPnL| / estimatedBalance
  if dailyPnL < 0 ∧ dailyLossLimit ≤ lossPercent then true
  else if maxConsecutiveLosses ≤ consecutiveLosses then true
  else false

/-- Claim C6: with dailyPnL = -60, start balance 1000 and loss limit 0.05 the breaker
trips (6% ≥ 5%); with loss limit 0.10 it does not (given consecutive losses below the
maximum); and in general it returns true exactly when dailyPnL is negative and
|dailyPnL| / balance-estimate reaches the limit, or consecutive losses reach the
configured maximum. -/
theorem checkCircuitBreaker_spec (cl m : ℕ) (hcl : cl < m) :
    checkCircuitBreaker (-60) 1000 (5/100) cl m = true ∧
    checkCircuitBreaker (-60) 1000 (10/100) cl m = false ∧
    (∀ (p b l : ℚ) (cl2 m2 : ℕ),
      checkCircuitBreaker p b l cl2 m2 = true ↔
        ((p < 0 ∧ l ≤ |p| / (if b > 0 then b else 1000)) ∨ m2 ≤ cl2)) := by
  refine ⟨?_, ?_, ?_⟩
  · norm_num [checkCircuitBreaker]
  · norm_num [checkCircuitBreaker, hcl, Nat.not_le.mpr hcl]
  · intro p b l cl2 m2
    unfold checkCircuitBreaker
    split_ifs with h1 h2 <;> simp_all

/-- Witness for `checkCircuitBreaker_spec`: 0 consecutive losses, maximum 5. -/
theorem checkCircuitBreaker_spec_witness :
    0 < 5 ∧
    (checkCircuitBreaker (-60) 1000 (5/100) 0 5 = true ∧
     checkCircuitBreaker (-60) 1000 (10/100) 0 5 = false ∧
     (∀ (p b l : ℚ) (cl2 m2 : ℕ),
        checkCircuitBreaker p b l cl2 m2 = true ↔
          ((p < 0 ∧ l ≤ |p| / (if b > 0 then b else 1000)) ∨ m2 ≤ cl2))) :=
  ⟨by decide, checkCircuitBreaker_spec 0 5 (by decide)⟩

end OBTrader
